import Mathlib

/-
Verification of the CDC site-automation scripts.

The development embeds the two algorithmic cores of the repository:

* `cdc-bench-tools.py` : the site-level calculator (`calculate_results`)
  and the site-compatibility rule engine (`calculate_site_checks`);
* `cdc-Site-Tools.py` : the boundary traversal, bearing parser, closure
  check and setback/road offset generator inside
  `draw_boundaries_and_setbacks`.

Numbers are modelled as exact rationals.  The Python `round(x, 3)`
builtin (round half to even) becomes `round3`.  The trigonometric
direction of an azimuth, `(sin(radians t), cos(radians t))`, is
irrational-valued, so traversal definitions are parameterised by a
direction oracle `dir : Q -> Q x Q`; every traversal theorem is proved
for all oracles, hence in particular for the real sine/cosine pair.
Likewise the segment length `math.hypot(dx, dy)` is a parameter
`hyp : Q -> Q -> Q`; theorems that depend on it assume only its
characteristic property `hyp dx dy = 0 <-> dx = 0 and dy = 0`, which the
real hypot satisfies.  Concrete witnesses instantiate the oracles with
exact stand-ins (`dirCard`, `hypL1`).
-/

namespace CDC

/-- Python round-half-to-even of a rational to an integer, the semantics
of the builtin `round`. -/
def pyRoundInt (x : ℚ) : ℤ :=
  let n := ⌊x⌋
  let r := x - n
  if r < 1/2 then n
  else if 1/2 < r then n + 1
  else if n % 2 = 0 then n else n + 1

/-- Python `round(x, 3)`: round to the nearest multiple of `1/1000`,
ties to even.  Used at every step of the level calculations. -/
def round3 (x : ℚ) : ℚ := (pyRoundInt (x * 1000) : ℚ) / 1000

/-- Rounding a rational that is already an exact multiple of `1/1000`
leaves it unchanged. -/
theorem round3_scaled (n : ℤ) (x : ℚ) (h : x * 1000 = (n : ℚ)) :
    round3 x = x := by
  have hx : x = (n : ℚ) / 1000 := by
    field_simp
    linarith [h]
  subst hx
  unfold round3 pyRoundInt
  have h1 : ((n : ℚ) / 1000 * 1000) = (n : ℚ) := by ring
  rw [h1]
  have h2 : (⌊(n : ℚ)⌋ : ℤ) = n := Int.floor_intCast n
  simp [h2]

/-- A rational fixed by `round3` is an exact multiple of `1/1000`. -/
theorem round3_fix_scale (x : ℚ) (h : round3 x = x) :
    x * 1000 = ((pyRoundInt (x * 1000) : ℤ) : ℚ) := by
  unfold round3 at h
  have := congrArg (fun y => y * 1000) h
  simp only at this
  field_simp at this
  linarith [this]

/-- Differences of `round3`-fixed rationals are `round3`-fixed. -/
theorem round3_fix_sub (x y : ℚ) (hx : round3 x = x) (hy : round3 y = y) :
    round3 (x - y) = x - y := by
  apply round3_scaled (pyRoundInt (x * 1000) - pyRoundInt (y * 1000))
  have hx1 := round3_fix_scale x hx
  have hy1 := round3_fix_scale y hy
  push_cast
  rw [sub_mul]
  linarith [hx1, hy1]

/- ### Bench tools: `calculate_results` (cdc-bench-tools.py lines 109-177) -/

/-- Token of the RL input line after the split on `+` and `,`:
a successfully parsed float, an unparsable nonempty string, or an empty
string (which the comprehension `for v in rl_values if v` filters out). -/
inductive RTok
  | num (v : ℚ)
  | bad
  | blank

/-- Parse of the RL list (lines 112-123): empty tokens are filtered, a
single unparsable token aborts the whole parse (the `try` around the
comprehension), each parsed value is rounded to 3 decimals. -/
def parseRLs (toks : List RTok) : Option (List ℚ) :=
  let nb := toks.filter (fun t => match t with | RTok.blank => false | _ => true)
  if nb.any (fun t => match t with | RTok.bad => true | _ => false)
  then none
  else some (nb.filterMap (fun t => match t with | RTok.num v => some (round3 v) | _ => none))

/-- Python `max` over a nonempty list (a fold of the binary max over the
tail, starting from the head); the `[]` case is never reached by the
calculator, which fails first on an empty RL list. -/
def listMax : List ℚ → ℚ
  | [] => 0
  | a :: t => t.foldl max a

/-- Python `min` over a nonempty list. -/
def listMin : List ℚ → ℚ
  | [] => 0
  | a :: t => t.foldl min a

/-- Slab thickness catalog `SLAB_THICKNESS_OPTIONS` (lines 24-32). -/
def SLAB_THICKNESS_OPTIONS : List (String × ℚ) :=
  [("S8/WM8", 310/1000),
   ("S9/WM9", 325/1000),
   ("WH18", 385/1000),
   ("WH19", 400/1000),
   ("WH2-8/9", 400/1000),
   ("E", 475/1000),
   ("460mm", 460/1000)]

/-- Boolean test that `pat` is an initial run of `l`. -/
def begMatch : List Char → List Char → Bool
  | [], _ => true
  | _ :: _, [] => false
  | a :: as, b :: bs => a == b && begMatch as bs

/-- Boolean substring containment on character lists, the semantics of
the Python `in` operator on strings. -/
def subInStr (pat : List Char) : List Char → Bool
  | [] => begMatch pat []
  | b :: bs => begMatch pat (b :: bs) || subInStr pat bs

/-- Slab dropdown resolution (lines 132-141): the first catalog entry
whose name occurs in the selected label wins; an unmatched label keeps
its text and gets thickness `0` (the `for ... else` branch). -/
def lookupSlab (lbl : String) : String × ℚ :=
  match SLAB_THICKNESS_OPTIONS.find? (fun e => subInStr e.1.toList lbl.toList) with
  | some e => e
  | none => (lbl, 0)

/-- All derived site levels produced by one successful run of
`calculate_results` (lines 125-151). -/
structure CalcOutput where
  bench_rl : ℚ
  highest_rl : ℚ
  lowest_rl : ℚ
  cut_max : ℚ
  fill_max : ℚ
  slab_thickness : ℚ
  ffl_rl : ℚ
  min_ffl_rl : ℚ
  fill_to_min_ffl : ℚ
  ext_tile_rl : ℚ
  ext_deck_rl : ℚ
  service_pad_rl : ℚ

/-- The site-level calculation (lines 109-177).  Returns `none` exactly
when the parse fails or no RL is left, the two paths that set
`_main_results = None`. -/
def calculate_results (toks : List RTok) (slabLbl : String) (minFflIn : ℚ) :
    Option CalcOutput :=
  match parseRLs toks with
  | none => none
  | some rls0 =>
    if rls0 = [] then none
    else
      let rls := List.insertionSort (· ≤ ·) rls0
      let bench_rl := round3 (rls.sum / (rls.length : ℚ))
      let highest_rl := listMax rls
      let lowest_rl := listMin rls
      let cut_max := round3 (highest_rl - bench_rl)
      let fill_max := round3 (lowest_rl - bench_rl)
      let slab := lookupSlab slabLbl
      let ffl_rl := round3 (bench_rl + slab.2)
      let min_ffl_rl := round3 minFflIn
      let fill_to_min_ffl := round3 (max 0 (min_ffl_rl - ffl_rl))
      let ext_tile_rl := round3 (bench_rl - 7/100)
      let ext_deck_rl := round3 (bench_rl - 9/100)
      let service_pad_rl := round3 (ffl_rl - 12/100)
      some ⟨bench_rl, highest_rl, lowest_rl, cut_max, fill_max, slab.2, ffl_rl,
            min_ffl_rl, fill_to_min_ffl, ext_tile_rl, ext_deck_rl, service_pad_rl⟩

/-- The subset of the results stored in `_main_results` (lines 172-177)
for consumption by the site checks. -/
structure MainResults where
  bench_rl : ℚ
  ffl_rl : ℚ
  cut_max : ℚ
  fill_max : ℚ

/-- Projection of a successful calculation onto the stored dictionary. -/
def mainResultsOf (o : CalcOutput) : MainResults :=
  ⟨o.bench_rl, o.ffl_rl, o.cut_max, o.fill_max⟩

/-- Effect of one click of Calculate Main Results on the stored
`_main_results` attribute: every path overwrites it, successful runs
with the fresh results and failing runs with `None` (lines 118, 122,
172-177); the previous value is never consulted. -/
def updateMainResults (_old : Option MainResults) (toks : List RTok)
    (slabLbl : String) (minFflIn : ℚ) : Option MainResults :=
  (calculate_results toks slabLbl minFflIn).map mainResultsOf

/- ### Order lemmas for the Python max/min folds -/

theorem foldl_max_bound (t : List ℚ) :
    ∀ a : ℚ, a ≤ t.foldl max a ∧ ∀ x ∈ t, x ≤ t.foldl max a := by
  induction t with
  | nil => simp
  | cons b t ih =>
    intro a
    rw [List.foldl_cons]
    refine ⟨le_trans (le_max_left a b) (ih (max a b)).1, ?_⟩
    intro x hx
    rcases List.mem_cons.mp hx with h1 | h1
    · subst h1
      exact le_trans (le_max_right a x) (ih (max a x)).1
    · exact (ih (max a b)).2 x h1

theorem foldl_max_mem (t : List ℚ) : ∀ a : ℚ, t.foldl max a ∈ a :: t := by
  induction t with
  | nil => simp
  | cons b t ih =>
    intro a
    rw [List.foldl_cons]
    have h := ih (max a b)
    rcases List.mem_cons.mp h with h1 | h1
    · rw [h1]
      rcases max_choice a b with h2 | h2 <;> rw [h2] <;> simp
    · simp only [List.mem_cons]
      right; right; exact h1

theorem foldl_min_bound (t : List ℚ) :
    ∀ a : ℚ, t.foldl min a ≤ a ∧ ∀ x ∈ t, t.foldl min a ≤ x := by
  induction t with
  | nil => simp
  | cons b t ih =>
    intro a
    rw [List.foldl_cons]
    refine ⟨le_trans (ih (min a b)).1 (min_le_left a b), ?_⟩
    intro x hx
    rcases List.mem_cons.mp hx with h1 | h1
    · subst h1
      exact le_trans (ih (min a x)).1 (min_le_right a x)
    · exact (ih (min a b)).2 x h1

theorem foldl_min_mem (t : List ℚ) : ∀ a : ℚ, t.foldl min a ∈ a :: t := by
  induction t with
  | nil => simp
  | cons b t ih =>
    intro a
    rw [List.foldl_cons]
    have h := ih (min a b)
    rcases List.mem_cons.mp h with h1 | h1
    · rw [h1]
      rcases min_choice a b with h2 | h2 <;> rw [h2] <;> simp
    · simp only [List.mem_cons]
      right; right; exact h1

theorem listMax_mem (l : List ℚ) (h : l ≠ []) : listMax l ∈ l := by
  cases l with
  | nil => exact absurd rfl h
  | cons a t => exact foldl_max_mem t a

theorem le_listMax (l : List ℚ) (x : ℚ) (hx : x ∈ l) : x ≤ listMax l := by
  cases l with
  | nil => cases hx
  | cons a t =>
    rcases List.mem_cons.mp hx with h1 | h1
    · subst h1; exact (foldl_max_bound t x).1
    · exact (foldl_max_bound t a).2 x h1

theorem listMin_mem (l : List ℚ) (h : l ≠ []) : listMin l ∈ l := by
  cases l with
  | nil => exact absurd rfl h
  | cons a t => exact foldl_min_mem t a

theorem listMin_le (l : List ℚ) (x : ℚ) (hx : x ∈ l) : listMin l ≤ x := by
  cases l with
  | nil => cases hx
  | cons a t =>
    rcases List.mem_cons.mp hx with h1 | h1
    · subst h1; exact (foldl_min_bound t x).1
    · exact (foldl_min_bound t a).2 x h1

theorem listMax_perm (l l2 : List ℚ) (h : l.Perm l2) (hne : l ≠ []) :
    listMax l = listMax l2 := by
  have hne2 : l2 ≠ [] := by
    intro h2; subst h2
    exact hne (List.Perm.eq_nil h)
  apply le_antisymm
  · exact le_listMax l2 _ ((h.mem_iff).mp (listMax_mem l hne))
  · exact le_listMax l _ ((h.mem_iff).mpr (listMax_mem l2 hne2))

theorem listMin_perm (l l2 : List ℚ) (h : l.Perm l2) (hne : l ≠ []) :
    listMin l = listMin l2 := by
  have hne2 : l2 ≠ [] := by
    intro h2; subst h2
    exact hne (List.Perm.eq_nil h)
  apply le_antisymm
  · exact listMin_le l _ ((h.mem_iff).mpr (listMin_mem l2 hne2))
  · exact listMin_le l2 _ ((h.mem_iff).mp (listMin_mem l hne))

theorem listMax_eq_head (a : ℚ) (l : List ℚ) (hb : ∀ x ∈ l, x ≤ a) :
    listMax (a :: l) = a := by
  apply le_antisymm
  · rcases List.mem_cons.mp (listMax_mem (a :: l) (by simp)) with h1 | h1
    · exact le_of_eq h1
    · exact hb _ h1
  · exact le_listMax (a :: l) a (List.mem_cons_self a l)

theorem listMin_cons_of_le (a : ℚ) (l : List ℚ) (hne : l ≠ [])
    (h : listMin l ≤ a) : listMin (a :: l) = listMin l := by
  apply le_antisymm
  · exact listMin_le (a :: l) _ (List.mem_cons_of_mem a (listMin_mem l hne))
  · rcases List.mem_cons.mp (listMin_mem (a :: l) (by simp)) with h1 | h1
    · rw [h1]; exact h
    · exact listMin_le l _ h1

/- ### Characterisation of a successful level calculation -/

/-- Full-parse characterisation: all-numeric token lists parse to the
rounded value list. -/
theorem parseRLs_num (vs : List ℚ) :
    parseRLs (vs.map RTok.num) = some (vs.map round3) := by
  unfold parseRLs
  have hf : (vs.map RTok.num).filter
      (fun t => match t with | RTok.blank => false | _ => true) = vs.map RTok.num := by
    apply List.filter_eq_self.mpr
    intro t ht
    rcases List.mem_map.mp ht with ⟨v, _, hv⟩
    subst hv; rfl
  rw [hf]
  have ha : (vs.map RTok.num).any
      (fun t => match t with | RTok.bad => true | _ => false) = false := by
    rw [List.any_eq_false]
    intro t ht
    rcases List.mem_map.mp ht with ⟨v, _, hv⟩
    subst hv; simp
  rw [if_neg (by simp [ha])]
  have hm : ∀ ws : List ℚ, (ws.map RTok.num).filterMap
      (fun t => match t with | RTok.num v => some (round3 v) | _ => none) =
      ws.map round3 := by
    intro ws
    induction ws with
    | nil => rfl
    | cons w ws2 ih => simp [List.filterMap_cons, ih]
  rw [hm]

/-- One successful run of `calculate_results` on parsable input computes
exactly the spec formulas from the multiset of rounded inputs (the
internal sort only permutes the list, so sum, length, max and min are
unchanged). -/
theorem calculate_results_spec (vs : List ℚ) (hne : vs ≠ [])
    (lbl : String) (mf : ℚ) :
    calculate_results (vs.map RTok.num) lbl mf =
      some { bench_rl := round3 ((vs.map round3).sum / ((vs.map round3).length : ℚ))
             highest_rl := listMax (vs.map round3)
             lowest_rl := listMin (vs.map round3)
             cut_max := round3 (listMax (vs.map round3) -
               round3 ((vs.map round3).sum / ((vs.map round3).length : ℚ)))
             fill_max := round3 (listMin (vs.map round3) -
               round3 ((vs.map round3).sum / ((vs.map round3).length : ℚ)))
             slab_thickness := (lookupSlab lbl).2
             ffl_rl := round3 (round3 ((vs.map round3).sum / ((vs.map round3).length : ℚ)) +
               (lookupSlab lbl).2)
             min_ffl_rl := round3 mf
             fill_to_min_ffl := round3 (max 0 (round3 mf -
               round3 (round3 ((vs.map round3).sum / ((vs.map round3).length : ℚ)) +
                 (lookupSlab lbl).2)))
             ext_tile_rl := round3 (round3 ((vs.map round3).sum / ((vs.map round3).length : ℚ)) - 7/100)
             ext_deck_rl := round3 (round3 ((vs.map round3).sum / ((vs.map round3).length : ℚ)) - 9/100)
             service_pad_rl := round3 (round3 (round3 ((vs.map round3).sum /
               ((vs.map round3).length : ℚ)) + (lookupSlab lbl).2) - 12/100) } := by
  have hrr : (vs.map round3) ≠ [] := by
    simpa using hne
  have hperm := List.perm_insertionSort (· ≤ ·) (vs.map round3)
  have hsum := hperm.sum_eq
  have hlen := hperm.length_eq
  have hsne : List.insertionSort (· ≤ ·) (vs.map round3) ≠ [] := by
    intro h0
    have hp2 := hperm
    rw [h0] at hp2
    exact hrr hp2.symm.eq_nil
  have hmax := listMax_perm _ _ hperm hsne
  have hmin := listMin_perm _ _ hperm hsne
  unfold calculate_results
  rw [parseRLs_num]
  simp only [if_neg hrr, hsum, hlen, hmax, hmin]

/- ### Bench tools: `calculate_site_checks` (cdc-bench-tools.py lines 179-241) -/

/-- Raw inputs of the site-check form: two road RLs, two neighbour RLs
and the two independent zero-boundary checkboxes. -/
structure CheckIn where
  roadHigh : ℚ
  roadLow : ℚ
  neigh1 : ℚ
  neigh2 : ℚ
  zero1 : Bool
  zero2 : Bool

/-- The advisory warnings, one constructor per distinct message shape;
the Bool arguments record the appended escalation clauses. -/
inductive Warning
  | stormwater
  | drivewayProfile
  | highRetainFence (zeroClause : Bool)
  | highCMA (tightClause : Bool) (blockUpClause : Bool)
  | lowRetainFence (zeroClause : Bool)
  | lowCMA (tightClause : Bool) (blockUpClause : Bool)
deriving DecidableEq

/-- Result of one click of Calculate Site Checks. -/
inductive ChecksOutput
  | prereqMissing
  | noSpecial
  | warnings (ws : List Warning)
deriving DecidableEq

/-- Neighbour ordering of lines 194-200: the first component is the
higher side, neighbour 1 winning ties (`if neigh1 >= neigh2`), each side
carrying its own zero-boundary flag. -/
def neighOrder (n1 n2 : ℚ) (z1 z2 : Bool) : (ℚ × Bool) × (ℚ × Bool) :=
  if n1 ≥ n2 then ((n1, z1), (n2, z2)) else ((n2, z2), (n1, z1))

/-- One neighbour side of the threshold table (lines 210-235, the high
and low blocks are textually identical up to the message wording given
by `mk1`/`mk2`): a retain-under-fence advisory for `0 < d <= 0.4` with
the zero-boundary clause, or a CMA advisory for `d > 0.4` with the
tight-site clause for `d > 0.6` and the block-up clause when the
zero-boundary flag is also set. -/
def sideWarnings (mk1 : Bool → Warning) (mk2 : Bool → Bool → Warning)
    (d : ℚ) (z : Bool) : List Warning :=
  (if 0 < d ∧ d ≤ 4/10 then [mk1 z] else []) ++
  (if d > 4/10 then [mk2 (decide (d > 6/10)) (decide (d > 6/10) && z)] else [])

/-- The warning list built by lines 188-235: inputs are rounded to 3
decimals, the two neighbours are ordered by value with neighbour 1
winning ties, and the threshold table is evaluated in source order. -/
def warningsOf (mr : MainResults) (c : CheckIn) : List Warning :=
  let road_high := round3 c.roadHigh
  let road_low := round3 c.roadLow
  let ns := neighOrder (round3 c.neigh1) (round3 c.neigh2) c.zero1 c.zero2
  let dH := |ns.1.1 - mr.bench_rl|
  let dL := |ns.2.1 - mr.bench_rl|
  (if road_high > mr.ffl_rl ∧ road_low > mr.ffl_rl then [Warning.stormwater] else []) ++
  (if |road_high - mr.ffl_rl| ≤ 6/10 ∨ |road_low - mr.ffl_rl| ≤ 6/10
    then [Warning.drivewayProfile] else []) ++
  sideWarnings Warning.highRetainFence Warning.highCMA dH ns.1.2 ++
  sideWarnings Warning.lowRetainFence Warning.lowCMA dL ns.2.2

/-- The site-check entry point (lines 179-241): a missing or cleared
`_main_results` reports the prerequisite message and nothing else; an
empty warning list reports the no-special-requirements status. -/
def calculate_site_checks (st : Option MainResults) (c : CheckIn) : ChecksOutput :=
  match st with
  | none => ChecksOutput.prereqMissing
  | some mr =>
    let ws := warningsOf mr c
    if ws = [] then ChecksOutput.noSpecial else ChecksOutput.warnings ws

/-- Spec-side warning list, transcribed from the claim wording: W1, then
W2, then the higher neighbour side, then the lower side (neighbour 1
winning ties), with `diff` taken directly against the raw inputs. -/
def specChecks (mr : MainResults) (c : CheckIn) : List Warning :=
  let ns := neighOrder c.neigh1 c.neigh2 c.zero1 c.zero2
  let dH := |ns.1.1 - mr.bench_rl|
  let dL := |ns.2.1 - mr.bench_rl|
  (if c.roadHigh > mr.ffl_rl ∧ c.roadLow > mr.ffl_rl then [Warning.stormwater] else []) ++
  (if |c.roadHigh - mr.ffl_rl| ≤ 6/10 ∨ |c.roadLow - mr.ffl_rl| ≤ 6/10
    then [Warning.drivewayProfile] else []) ++
  sideWarnings Warning.highRetainFence Warning.highCMA dH ns.1.2 ++
  sideWarnings Warning.lowRetainFence Warning.lowCMA dL ns.2.2

/- ### Site tools: boundary traversal (cdc-Site-Tools.py lines 520-610) -/

/-- Token of a bearing string after `bearing.split()`: a token that
`float` parses, or one it rejects. -/
inductive Tok
  | num (v : ℚ)
  | bad
deriving DecidableEq

/-- Boundary type of a row, the four values of the read-only type
dropdown after `.lower()`. -/
inductive BType
  | side
  | rear
  | frontage
  | secondary
deriving DecidableEq

/-- One row of the boundary table: type, whitespace-split bearing
tokens (empty list for an empty bearing), distance and the 180-degree
flip checkbox. -/
structure Row where
  btype : BType
  bearing : List Tok
  distance : ℚ
  flip : Bool

/-- The three bearing parse failures of lines 543-558, in source order:
a 3-token bearing with a non-numeric part, a 1-token bearing that is not
a number, and any other token count. -/
inductive BFail
  | partsNotNumbers
  | notADecimal
  | badFormat
deriving DecidableEq

/-- Bearing parse of lines 542-558: exactly 3 numeric tokens combine as
degrees, minutes, seconds; exactly 1 numeric token is decimal degrees;
everything else fails. -/
def parseBearing : List Tok → Except BFail ℚ
  | [Tok.num d, Tok.num m, Tok.num s] => Except.ok (d + m/60 + s/3600)
  | [_, _, _] => Except.error BFail.partsNotNumbers
  | [Tok.num v] => Except.ok v
  | [_] => Except.error BFail.notADecimal
  | _ => Except.error BFail.badFormat

/-- Python float modulo for a positive modulus: the remainder of the
floored division, so the result lies in `[0, b)` for `b > 0`. -/
def pymod (a b : ℚ) : ℚ := a - b * ⌊a / b⌋

/-- One resolved boundary segment (the dict of lines 566-568), with the
post-flip azimuth stored as `bearing`. -/
structure Segment where
  btype : BType
  start : ℚ × ℚ
  endPt : ℚ × ℚ
  idx : ℕ
  distance : ℚ
  bearing : ℚ

/-- One parse-failure log line: the reported row index and the raw
bearing text, and which of the three messages was printed. -/
structure LogEntry where
  idx : ℕ
  raw : List Tok
  fail : BFail

/-- Outcome of one boundary row: silently skipped (`continue` without
output, for non-positive distance or empty bearing), skipped with a
parse-failure log line, or a resolved segment. -/
inductive RowOutcome
  | skipSilent
  | skipLogged (e : LogEntry)
  | seg (s : Segment)

/-- Metres per chain link (line 538). -/
def CHAIN_M : ℚ := 201168/10000

/-- Processing of one row by the collection loop of lines 524-569,
parameterised by the direction oracle `dir` standing for
`t => (sin(radians t), cos(radians t))`. -/
def processRow (chain : Bool) (dir : ℚ → ℚ × ℚ) (cursor : ℚ × ℚ) (idx : ℕ)
    (r : Row) : RowOutcome :=
  if r.distance ≤ 0 then RowOutcome.skipSilent
  else
    let distance := if chain then r.distance * CHAIN_M else r.distance
    if r.bearing = [] then RowOutcome.skipSilent
    else
      match parseBearing r.bearing with
      | Except.error e => RowOutcome.skipLogged ⟨idx, r.bearing, e⟩
      | Except.ok theta0 =>
        let theta := if r.flip then pymod (theta0 + 180) 360 else theta0
        let d := dir theta
        RowOutcome.seg ⟨r.btype, cursor,
          (cursor.1 + distance * d.1, cursor.2 + distance * d.2),
          idx, distance, theta⟩

/-- The collection loop: fold of `processRow` over the rows, advancing
the cursor only on resolved segments, returning the segments and the
parse-failure log lines in order. -/
def traverseFrom (chain : Bool) (dir : ℚ → ℚ × ℚ) :
    (ℚ × ℚ) → ℕ → List Row → List Segment × List LogEntry
  | _, _, [] => ([], [])
  | cursor, idx, r :: rest =>
    match processRow chain dir cursor idx r with
    | RowOutcome.skipSilent => traverseFrom chain dir cursor (idx + 1) rest
    | RowOutcome.skipLogged e =>
      let p := traverseFrom chain dir cursor (idx + 1) rest
      (p.1, e :: p.2)
    | RowOutcome.seg s =>
      let p := traverseFrom chain dir s.endPt (idx + 1) rest
      (s :: p.1, p.2)

/-- The boundary traversal starts its cursor at the origin
(`x, y = 0.0, 0.0`, line 523) and row index 0. -/
def traverse (chain : Bool) (dir : ℚ → ℚ × ℚ) (rows : List Row) :
    List Segment × List LogEntry :=
  traverseFrom chain dir (0, 0) 0 rows

/-- Closure tolerance of line 598. -/
def TOL : ℚ := 1/1000000

/-- The synthetic closing edge of lines 594-610: only when more than
one segment exists and the first start differs from the last end by
more than the tolerance in either coordinate, one extra polyline from
the last end to the first start is drawn. -/
def closingEdge : List Segment → Option ((ℚ × ℚ) × (ℚ × ℚ))
  | [] => none
  | [_] => none
  | f :: s :: rest =>
    let l := ((f :: s :: rest).getLast?).getD f
    if |f.start.1 - l.endPt.1| > TOL ∨ |f.start.2 - l.endPt.2| > TOL
    then some (l.endPt, f.start)
    else none

/-- Sample direction oracle for concrete examples: the exact values of
`(sin(radians t), cos(radians t))` at the four cardinal azimuths, an
arbitrary unit vector elsewhere. -/
def dirCard (theta : ℚ) : ℚ × ℚ :=
  if theta = 0 then (0, 1)
  else if theta = 90 then (1, 0)
  else if theta = 180 then (0, -1)
  else if theta = 270 then (-1, 0)
  else (0, 1)

/- ### Site tools: setback and road offsets (cdc-Site-Tools.py lines 611-731) -/

/-- The setback entry fields `setback_vars` (lines 421-437). -/
structure Setbacks where
  front : ℚ
  side : ℚ
  rear : ℚ
  secondary : ℚ
  front_min : ℚ
  front_hab : ℚ
  garage : ℚ

/-- Keys of `setback_vars` used by the offset pass. -/
inductive SKey
  | front_min
  | front_hab
  | garage
  | secondary
  | side
  | rear
deriving DecidableEq

/-- Lookup of a setback entry by key. -/
def sbVal (sb : Setbacks) : SKey → ℚ
  | SKey.front_min => sb.front_min
  | SKey.front_hab => sb.front_hab
  | SKey.garage => sb.garage
  | SKey.secondary => sb.secondary
  | SKey.side => sb.side
  | SKey.rear => sb.rear

/-- Kind of a derived offset line: a setback for one key, or the fixed
road line. -/
inductive OKind
  | setback (k : SKey)
  | road
deriving DecidableEq

/-- One derived offset polyline, endpoints in start-end order. -/
structure OLine where
  kind : OKind
  a : ℚ × ℚ
  b : ℚ × ℚ

/-- Observable events of the offset pass, in emission order: a created
polyline, a zero-length skip log line (with the frontage setback label
when one is printed), or the text-label-unsupported note that closes
each fully processed segment. -/
inductive OEvent
  | created (l : OLine)
  | skipZero (idx : ℕ) (k : Option SKey)
  | textNote (idx : ℕ)

/-- Translation of a point by `o` times the normal `n`. -/
def translate (p : ℚ × ℚ) (o : ℚ) (n : ℚ × ℚ) : ℚ × ℚ :=
  (p.1 + o * n.1, p.2 + o * n.2)

/-- Road line offset (lines 644 and 688). -/
def ROAD_OFFSET : ℚ := 425/100

/-- Offset generation for one segment (lines 613-729), parameterised by
the length oracle `hyp` standing for `math.hypot`.  The returned flag
records an uncaught `ZeroDivisionError`: the frontage road line of
lines 643-649 divides by the segment length without the zero guard that
every setback branch has. -/
def segOffsets (hyp : ℚ → ℚ → ℚ) (sb : Setbacks) (seg : Segment) :
    List OEvent × Bool :=
  let dx := seg.endPt.1 - seg.start.1
  let dy := seg.endPt.2 - seg.start.2
  match seg.btype with
  | BType.frontage =>
    let setbackEvs := [SKey.front_min, SKey.front_hab, SKey.garage].map (fun k =>
      if hyp dx dy = 0 then OEvent.skipZero seg.idx (some k)
      else
        let n := (-dy / hyp dx dy, dx / hyp dx dy)
        OEvent.created ⟨OKind.setback k,
          translate seg.start (-|sbVal sb k|) n,
          translate seg.endPt (-|sbVal sb k|) n⟩)
    if hyp dx dy = 0 then (setbackEvs, true)
    else
      let n := (-dy / hyp dx dy, dx / hyp dx dy)
      (setbackEvs ++
        [OEvent.created ⟨OKind.road,
           translate seg.start ROAD_OFFSET n,
           translate seg.endPt ROAD_OFFSET n⟩,
         OEvent.textNote seg.idx], false)
  | BType.secondary =>
    if hyp dx dy = 0 then ([OEvent.skipZero seg.idx none], false)
    else
      let n := (-dy / hyp dx dy, dx / hyp dx dy)
      ([OEvent.created ⟨OKind.setback SKey.secondary,
          translate seg.start (-|sb.secondary|) n,
          translate seg.endPt (-|sb.secondary|) n⟩,
        OEvent.created ⟨OKind.road,
          translate seg.start ROAD_OFFSET n,
          translate seg.endPt ROAD_OFFSET n⟩,
        OEvent.textNote seg.idx], false)
  | BType.side =>
    if hyp dx dy = 0 then ([OEvent.skipZero seg.idx none], false)
    else
      let n := (-dy / hyp dx dy, dx / hyp dx dy)
      ([OEvent.created ⟨OKind.setback SKey.side,
          translate seg.start (-|sb.side|) n,
          translate seg.endPt (-|sb.side|) n⟩,
        OEvent.textNote seg.idx], false)
  | BType.rear =>
    if hyp dx dy = 0 then ([OEvent.skipZero seg.idx none], false)
    else
      let n := (-dy / hyp dx dy, dx / hyp dx dy)
      ([OEvent.created ⟨OKind.setback SKey.rear,
          translate seg.start (-|sb.rear|) n,
          translate seg.endPt (-|sb.rear|) n⟩,
        OEvent.textNote seg.idx], false)

/-- The offset pass over all segments, inside one `try` block: an
uncaught `ZeroDivisionError` jumps to the handler of line 730, so the
remaining segments are not processed and the flag is raised. -/
def offsetPass (hyp : ℚ → ℚ → ℚ) (sb : Setbacks) :
    List Segment → List OEvent × Bool
  | [] => ([], false)
  | s :: rest =>
    let p := segOffsets hyp sb s
    if p.2 then (p.1, true)
    else
      let q := offsetPass hyp sb rest
      (p.1 ++ q.1, q.2)

/-- Exact stand-in length oracle for concrete examples: the L1 norm,
which vanishes exactly where `math.hypot` does. -/
def hypL1 (a b : ℚ) : ℚ := |a| + |b|

/- ### Claim theorems -/

/-- C10: the compatibility check reports the prerequisite-missing status
and emits no warnings whenever no level calculation has successfully
run; and a failed calculation (unparsable or empty RL input) overwrites
any previously stored results with nothing, so a check invoked after the
failure also reports prerequisite-missing even if an earlier calculation
had succeeded. -/
theorem C10_prerequisite (old : Option MainResults) (toks : List RTok)
    (lbl : String) (mf : ℚ) (c : CheckIn)
    (hfail : parseRLs toks = none ∨ parseRLs toks = some []) :
    (∀ c2 : CheckIn, calculate_site_checks none c2 = ChecksOutput.prereqMissing) ∧
    updateMainResults old toks lbl mf = none ∧
    calculate_site_checks (updateMainResults old toks lbl mf) c =
      ChecksOutput.prereqMissing := by
  have hcr : calculate_results toks lbl mf = none := by
    rcases hfail with h | h
    · unfold calculate_results
      rw [h]
    · unfold calculate_results
      rw [h]
      simp
  refine ⟨fun _ => rfl, ?_, ?_⟩
  · unfold updateMainResults
    rw [hcr]
    rfl
  · unfold updateMainResults
    rw [hcr]
    rfl

/-- C10 witness: after a run on an unparsable RL line, the stored state
is cleared and the site check reports the prerequisite message, even
though a successful result was stored before. -/
theorem C10_prerequisite_witness :
    updateMainResults (some ⟨102/10, 1051/100, 2/10, -2/10⟩)
      [RTok.bad] "S8/WM8 (310mm)" 0 = none ∧
    calculate_site_checks
      (updateMainResults (some ⟨102/10, 1051/100, 2/10, -2/10⟩)
        [RTok.bad] "S8/WM8 (310mm)" 0)
      ⟨11, 11, 10, 10, false, false⟩ = ChecksOutput.prereqMissing :=
  ⟨(C10_prerequisite (some ⟨102/10, 1051/100, 2/10, -2/10⟩) [RTok.bad]
      "S8/WM8 (310mm)" 0 ⟨11, 11, 10, 10, false, false⟩ (Or.inl rfl)).2.1,
   (C10_prerequisite (some ⟨102/10, 1051/100, 2/10, -2/10⟩) [RTok.bad]
      "S8/WM8 (310mm)" 0 ⟨11, 11, 10, 10, false, false⟩ (Or.inl rfl)).2.2⟩

/-- C3: after a successful level calculation, for check inputs exact at
3 decimals the output is exactly the ordered warning sequence of the
spec decision table (W1, W2, higher neighbour side, lower side with
neighbour 1 winning ties), or the single no-special-requirements status
when that sequence is empty. -/
theorem C3_site_checks (mr : MainResults) (c : CheckIn)
    (h1 : round3 c.roadHigh = c.roadHigh) (h2 : round3 c.roadLow = c.roadLow)
    (h3 : round3 c.neigh1 = c.neigh1) (h4 : round3 c.neigh2 = c.neigh2) :
    calculate_site_checks (some mr) c =
      (if specChecks mr c = [] then ChecksOutput.noSpecial
       else ChecksOutput.warnings (specChecks mr c)) := by
  have hw : warningsOf mr c = specChecks mr c := by
    unfold warningsOf specChecks
    rw [h1, h2, h3, h4]
  simp only [calculate_site_checks]
  rw [hw]

/-- C3 witness: the spec example road pair (11.2, 11.0) against
FFL 10.51, with a higher neighbour 0.3 m above the bench, yields exactly
the stormwater warning, the driveway-profile warning, and the high-side
retain-under-fence advisory, in that order. -/
theorem C3_site_checks_witness :
    calculate_site_checks (some ⟨102/10, 1051/100, 2/10, -2/10⟩)
      ⟨112/10, 11, 105/10, 102/10, false, false⟩ =
      ChecksOutput.warnings
        [Warning.stormwater, Warning.drivewayProfile,
         Warning.highRetainFence false] := by
  have h := C3_site_checks ⟨102/10, 1051/100, 2/10, -2/10⟩
    ⟨112/10, 11, 105/10, 102/10, false, false⟩
    (round3_scaled 11200 _ (by norm_num))
    (round3_scaled 11000 _ (by norm_num))
    (round3_scaled 10500 _ (by norm_num))
    (round3_scaled 10200 _ (by norm_num))
  rw [h]
  norm_num [specChecks, neighOrder, sideWarnings, abs_of_nonneg, abs_of_nonpos]
  exact fun h2 => absurd h2 (by simp)

/-- C1: for every non-empty list of parsable input RLs and a slab label
resolving to thickness `th`, the calculation produces the bench RL as
the rounded mean of the rounded inputs, cut and fill extremes against
the highest and lowest input, the FFL as bench plus slab thickness, the
fill to the minimum FFL, and the three fixed external offsets, each
value rounded to 3 decimals at each step. -/
theorem C1_site_levels (vs : List ℚ) (hne : vs ≠ []) (lbl : String)
    (nm : String) (th : ℚ) (hslab : lookupSlab lbl = (nm, th)) (mf : ℚ) :
    calculate_results (vs.map RTok.num) lbl mf =
      some { bench_rl := round3 ((vs.map round3).sum / ((vs.map round3).length : ℚ))
             highest_rl := listMax (vs.map round3)
             lowest_rl := listMin (vs.map round3)
             cut_max := round3 (listMax (vs.map round3) -
               round3 ((vs.map round3).sum / ((vs.map round3).length : ℚ)))
             fill_max := round3 (listMin (vs.map round3) -
               round3 ((vs.map round3).sum / ((vs.map round3).length : ℚ)))
             slab_thickness := th
             ffl_rl := round3 (round3 ((vs.map round3).sum / ((vs.map round3).length : ℚ)) + th)
             min_ffl_rl := round3 mf
             fill_to_min_ffl := round3 (max 0 (round3 mf -
               round3 (round3 ((vs.map round3).sum / ((vs.map round3).length : ℚ)) + th)))
             ext_tile_rl := round3 (round3 ((vs.map round3).sum / ((vs.map round3).length : ℚ)) - 7/100)
             ext_deck_rl := round3 (round3 ((vs.map round3).sum / ((vs.map round3).length : ℚ)) - 9/100)
             service_pad_rl := round3 (round3 (round3 ((vs.map round3).sum /
               ((vs.map round3).length : ℚ)) + th) - 12/100) } := by
  have h := calculate_results_spec vs hne lbl mf
  rw [hslab] at h
  exact h

/-- C1 witness: the spec example, RLs 10.0, 10.2, 10.4 with the 0.310
slab, gives bench 10.200, FFL 10.510, cut +0.200 and fill -0.200, along
with the external levels. -/
theorem C1_site_levels_witness :
    calculate_results [RTok.num 10, RTok.num (102/10), RTok.num (104/10)]
      "S8/WM8 (310mm)" 0 =
      some { bench_rl := 102/10, highest_rl := 104/10, lowest_rl := 10,
             cut_max := 2/10, fill_max := -2/10, slab_thickness := 310/1000,
             ffl_rl := 1051/100, min_ffl_rl := 0, fill_to_min_ffl := 0,
             ext_tile_rl := 1013/100, ext_deck_rl := 1011/100,
             service_pad_rl := 1039/100 } := by
  have h := C1_site_levels [10, 102/10, 104/10] (by simp) "S8/WM8 (310mm)"
    "S8/WM8" (310/1000) rfl 0
  simp only [List.map_cons, List.map_nil] at h
  rw [round3_scaled 10000 10 (by norm_num),
      round3_scaled 10200 (102/10) (by norm_num),
      round3_scaled 10400 (104/10) (by norm_num)] at h
  norm_num [listMax, listMin, List.foldl, max_def, min_def] at h
  rw [round3_scaled 10200 (51/5) (by norm_num)] at h
  rw [(by norm_num : (52:ℚ)/5 - 51/5 = 1/5),
      round3_scaled 200 (1/5) (by norm_num)] at h
  rw [(by norm_num : (10:ℚ) - 51/5 = -(1/5)),
      round3_scaled (-200) (-(1/5)) (by norm_num)] at h
  rw [(by norm_num : (51:ℚ)/5 + 31/100 = 1051/100),
      round3_scaled 10510 (1051/100) (by norm_num)] at h
  rw [round3_scaled 0 0 (by norm_num)] at h
  rw [if_neg (by norm_num : ¬ ((1051:ℚ)/100 ≤ 0))] at h
  rw [round3_scaled 0 0 (by norm_num)] at h
  rw [(by norm_num : (51:ℚ)/5 - 7/100 = 1013/100),
      round3_scaled 10130 (1013/100) (by norm_num)] at h
  rw [(by norm_num : (51:ℚ)/5 - 9/100 = 1011/100),
      round3_scaled 10110 (1011/100) (by norm_num)] at h
  rw [(by norm_num : (1051:ℚ)/100 - 3/25 = 1039/100),
      round3_scaled 10390 (1039/100) (by norm_num)] at h
  norm_num
  exact h

/- ### Traversal lemmas -/

/-- Chaining predicate: each segment starts where the previous one
ended, the first at the given cursor. -/
def chainedFrom (c0 : ℚ × ℚ) : List Segment → Prop
  | [] => True
  | s :: rest => s.start = c0 ∧ chainedFrom s.endPt rest

theorem processRow_seg (chain : Bool) (dir : ℚ → ℚ × ℚ) (cursor : ℚ × ℚ)
    (idx : ℕ) (r : Row) (s : Segment)
    (h : processRow chain dir cursor idx r = RowOutcome.seg s) :
    s.start = cursor ∧
    s.endPt = (s.start.1 + s.distance * (dir s.bearing).1,
               s.start.2 + s.distance * (dir s.bearing).2) := by
  unfold processRow at h
  by_cases hd : r.distance ≤ 0
  · rw [if_pos hd] at h
    cases h
  · rw [if_neg hd] at h
    by_cases hb : r.bearing = []
    · simp only [if_pos hb] at h
      cases h
    · simp only [if_neg hb] at h
      rcases hp : parseBearing r.bearing with e | t <;> rw [hp] at h
      · cases h
      · dsimp only at h
        cases h
        exact ⟨rfl, rfl⟩

theorem processRow_skip (chain : Bool) (dir : ℚ → ℚ × ℚ) (cursor : ℚ × ℚ)
    (idx : ℕ) (r : Row)
    (h : r.distance ≤ 0 ∨ r.bearing = [] ∨ ∃ e, parseBearing r.bearing = Except.error e) :
    processRow chain dir cursor idx r = RowOutcome.skipSilent ∨
    ∃ l, processRow chain dir cursor idx r = RowOutcome.skipLogged l := by
  unfold processRow
  rcases h with h | h | ⟨e, h⟩
  · left
    rw [if_pos h]
  · by_cases hd : r.distance ≤ 0
    · left
      rw [if_pos hd]
    · left
      rw [if_neg hd]
      simp only [if_pos h]
  · by_cases hd : r.distance ≤ 0
    · left
      rw [if_pos hd]
    · by_cases hb : r.bearing = []
      · left
        rw [if_neg hd]
        simp only [if_pos hb]
      · right
        refine ⟨⟨idx, r.bearing, e⟩, ?_⟩
        rw [if_neg hd]
        simp only [if_neg hb, h]

theorem traverseFrom_chained (chain : Bool) (dir : ℚ → ℚ × ℚ) :
    ∀ (rows : List Row) (cursor : ℚ × ℚ) (idx : ℕ),
      chainedFrom cursor (traverseFrom chain dir cursor idx rows).1 := by
  intro rows
  induction rows with
  | nil => intro cursor idx; trivial
  | cons r rest ih =>
    intro cursor idx
    unfold traverseFrom
    rcases hpr : processRow chain dir cursor idx r with _ | l | s
    · exact ih cursor (idx + 1)
    · exact ih cursor (idx + 1)
    · refine ⟨(processRow_seg chain dir cursor idx r s hpr).1, ?_⟩
      exact ih s.endPt (idx + 1)

theorem traverseFrom_formula (chain : Bool) (dir : ℚ → ℚ × ℚ) :
    ∀ (rows : List Row) (cursor : ℚ × ℚ) (idx : ℕ) (s : Segment),
      s ∈ (traverseFrom chain dir cursor idx rows).1 →
      s.endPt = (s.start.1 + s.distance * (dir s.bearing).1,
                 s.start.2 + s.distance * (dir s.bearing).2) := by
  intro rows
  induction rows with
  | nil => intro cursor idx s hs; cases hs
  | cons r rest ih =>
    intro cursor idx s hs
    unfold traverseFrom at hs
    rcases hpr : processRow chain dir cursor idx r with _ | l | s0 <;> rw [hpr] at hs
    · exact ih cursor (idx + 1) s hs
    · exact ih cursor (idx + 1) s hs
    · rcases List.mem_cons.mp hs with h1 | h1
      · subst h1
        exact (processRow_seg chain dir cursor idx r s hpr).2
      · exact ih s0.endPt (idx + 1) s h1

theorem chainedFrom_head (c0 : ℚ × ℚ) (segs : List Segment)
    (hc : chainedFrom c0 segs) (h : segs ≠ []) :
    (segs.head h).start = c0 := by
  cases segs with
  | nil => exact absurd rfl h
  | cons s rest => exact hc.1

theorem chainedFrom_get (segs : List Segment) :
    ∀ (c0 : ℚ × ℚ), chainedFrom c0 segs →
      ∀ (i : ℕ) (h : i + 1 < segs.length),
        (segs.get ⟨i, Nat.lt_of_succ_lt h⟩).endPt = (segs.get ⟨i + 1, h⟩).start := by
  induction segs with
  | nil => intro c0 _ i h; exact absurd h (by simp)
  | cons s rest ih =>
    intro c0 hc i h
    cases i with
    | zero =>
      have hr : rest ≠ [] := by
        intro h0
        rw [h0] at h
        simp at h
      have := chainedFrom_head s.endPt rest hc.2 hr
      cases rest with
      | nil => exact absurd rfl hr
      | cons t rest2 => exact this.symm
    | succ j =>
      have hj : j + 1 < rest.length := by
        simpa using h
      exact ih s.endPt hc.2 j hj

/-- C2: every traversal starts its cursor at the origin, every emitted
segment satisfies the azimuth displacement formula
`end = start + distance * dir(azimuth)`, consecutive segments chain
(the start of segment N+1 is the end of segment N), and a row skipped
for non-positive distance, empty bearing or unparsable bearing leaves
the cursor unchanged for the rest of the traversal. -/
theorem C2_traversal (chain : Bool) (dir : ℚ → ℚ × ℚ) (rows : List Row) :
    (∀ s ∈ (traverse chain dir rows).1,
        s.endPt = (s.start.1 + s.distance * (dir s.bearing).1,
                   s.start.2 + s.distance * (dir s.bearing).2)) ∧
    (∀ (i : ℕ) (h : i + 1 < (traverse chain dir rows).1.length),
        ((traverse chain dir rows).1.get ⟨i, Nat.lt_of_succ_lt h⟩).endPt =
        ((traverse chain dir rows).1.get ⟨i + 1, h⟩).start) ∧
    (∀ h : (traverse chain dir rows).1 ≠ [],
        ((traverse chain dir rows).1.head h).start = (0, 0)) ∧
    (∀ (cursor : ℚ × ℚ) (idx : ℕ) (r : Row) (rest : List Row),
        r.distance ≤ 0 ∨ r.bearing = [] ∨
          (∃ e, parseBearing r.bearing = Except.error e) →
        (traverseFrom chain dir cursor idx (r :: rest)).1 =
        (traverseFrom chain dir cursor (idx + 1) rest).1) := by
  refine ⟨fun s hs => traverseFrom_formula chain dir rows (0, 0) 0 s hs,
          fun i h => chainedFrom_get (traverse chain dir rows).1 (0, 0)
            (traverseFrom_chained chain dir rows (0, 0) 0) i h,
          fun h => chainedFrom_head (0, 0) (traverse chain dir rows).1
            (traverseFrom_chained chain dir rows (0, 0) 0) h,
          ?_⟩
  intro cursor idx r rest hskip
  rcases processRow_skip chain dir cursor idx r hskip with h | ⟨l, h⟩ <;>
    · show (match processRow chain dir cursor idx r with
        | RowOutcome.skipSilent => traverseFrom chain dir cursor (idx + 1) rest
        | RowOutcome.skipLogged e =>
          let p := traverseFrom chain dir cursor (idx + 1) rest
          (p.1, e :: p.2)
        | RowOutcome.seg s =>
          let p := traverseFrom chain dir s.endPt (idx + 1) rest
          (s :: p.1, p.2)).1 = _
      rw [h]

/-- C2 witness: a two-row table whose first row resolves to a segment
from the origin and whose second row has an empty bearing; the segment
satisfies the displacement formula and the empty-bearing row leaves the
traversal state unchanged. -/
theorem C2_traversal_witness :
    (⟨BType.side, (0, 0), (0, 10), 0, 10, 0⟩ : Segment).endPt =
      ((⟨BType.side, (0, 0), (0, 10), 0, 10, 0⟩ : Segment).start.1 +
        (⟨BType.side, (0, 0), (0, 10), 0, 10, 0⟩ : Segment).distance *
          (dirCard (⟨BType.side, (0, 0), (0, 10), 0, 10, 0⟩ : Segment).bearing).1,
       (⟨BType.side, (0, 0), (0, 10), 0, 10, 0⟩ : Segment).start.2 +
        (⟨BType.side, (0, 0), (0, 10), 0, 10, 0⟩ : Segment).distance *
          (dirCard (⟨BType.side, (0, 0), (0, 10), 0, 10, 0⟩ : Segment).bearing).2) ∧
    (traverseFrom false dirCard (0, 0) 1 [⟨BType.rear, [], 5, false⟩]).1 =
      (traverseFrom false dirCard (0, 0) 2 []).1 := by
  have hseg : (traverse false dirCard
      [⟨BType.side, [Tok.num 0], 10, false⟩, ⟨BType.rear, [], 5, false⟩]).1 =
      [⟨BType.side, (0, 0), (0, 10), 0, 10, 0⟩] := by
    norm_num [traverse, traverseFrom, processRow, parseBearing, dirCard]
  constructor
  · apply (C2_traversal false dirCard
      [⟨BType.side, [Tok.num 0], 10, false⟩, ⟨BType.rear, [], 5, false⟩]).1
    rw [hseg]
    exact List.mem_singleton.mpr rfl
  · exact (C2_traversal false dirCard []).2.2.2 (0, 0) 1 ⟨BType.rear, [], 5, false⟩ []
      (Or.inr (Or.inl rfl))

/-- Unfolding equation of the traversal on a non-empty row list. -/
theorem traverseFrom_cons (chain : Bool) (dir : ℚ → ℚ × ℚ) (cursor : ℚ × ℚ)
    (idx : ℕ) (r : Row) (rest : List Row) :
    traverseFrom chain dir cursor idx (r :: rest) =
      match processRow chain dir cursor idx r with
      | RowOutcome.skipSilent => traverseFrom chain dir cursor (idx + 1) rest
      | RowOutcome.skipLogged e =>
        ((traverseFrom chain dir cursor (idx + 1) rest).1,
         e :: (traverseFrom chain dir cursor (idx + 1) rest).2)
      | RowOutcome.seg s =>
        (s :: (traverseFrom chain dir s.endPt (idx + 1) rest).1,
         (traverseFrom chain dir s.endPt (idx + 1) rest).2) := rfl

/-- Python float modulo with a positive modulus lands in `[0, b)`. -/
theorem pymod_pos_bound (a b : ℚ) (hb : 0 < b) :
    0 ≤ pymod a b ∧ pymod a b < b := by
  unfold pymod
  constructor
  · have h1 : ((⌊a / b⌋ : ℚ)) ≤ a / b := Int.floor_le (a / b)
    have h2 : b * (⌊a / b⌋ : ℚ) ≤ b * (a / b) :=
      mul_le_mul_of_nonneg_left h1 (le_of_lt hb)
    have h3 : b * (a / b) = a := by field_simp
    linarith
  · have h1 : a / b < (⌊a / b⌋ : ℚ) + 1 := Int.lt_floor_add_one (a / b)
    have h2 : b * (a / b) < b * ((⌊a / b⌋ : ℚ) + 1) := (mul_lt_mul_left hb).mpr h1
    have h3 : b * (a / b) = a := by field_simp
    nlinarith

/-- C5 (amended): when the flip flag is set, the stored azimuth of a
resolved segment lies in `[0, 360)`; without the flip the parsed value
is stored unnormalized, so no such bound holds (see the
counterexample). -/
theorem C5_flip_normalized (chain : Bool) (dir : ℚ → ℚ × ℚ) (cursor : ℚ × ℚ)
    (idx : ℕ) (r : Row) (s : Segment) (hflip : r.flip = true)
    (h : processRow chain dir cursor idx r = RowOutcome.seg s) :
    0 ≤ s.bearing ∧ s.bearing < 360 := by
  unfold processRow at h
  by_cases hd : r.distance ≤ 0
  · rw [if_pos hd] at h
    cases h
  · rw [if_neg hd] at h
    by_cases hb : r.bearing = []
    · simp only [if_pos hb] at h
      cases h
    · simp only [if_neg hb] at h
      rcases hp : parseBearing r.bearing with e | t <;> rw [hp] at h
      · cases h
      · dsimp only at h
        simp only [hflip, eq_self_iff_true, if_true] at h
        cases h
        exact pymod_pos_bound (t + 180) 360 (by norm_num)

/-- C5 counterexample: an unflipped bearing of 400 degrees resolves to a
segment whose stored azimuth is 400, outside `[0, 360)`; the claim fails
for segments produced without the flip flag. -/
theorem C5_counterexample :
    ¬ (∀ s : Segment,
        processRow false dirCard (0, 0) 0 ⟨BType.side, [Tok.num 400], 1, false⟩ =
          RowOutcome.seg s → 0 ≤ s.bearing ∧ s.bearing < 360) := by
  intro hcl
  have hpr : processRow false dirCard (0, 0) 0 ⟨BType.side, [Tok.num 400], 1, false⟩ =
      RowOutcome.seg ⟨BType.side, (0, 0), (0, 1), 0, 1, 400⟩ := by
    norm_num [processRow, parseBearing, dirCard]
  have h2 := hcl _ hpr
  norm_num at h2

/-- C5 witness: the same 400-degree bearing with the flip flag set is
stored as 220, inside `[0, 360)`. -/
theorem C5_flip_normalized_witness :
    0 ≤ (Segment.mk BType.side (0, 0) (0, 1) 0 1 220).bearing ∧
    (Segment.mk BType.side (0, 0) (0, 1) 0 1 220).bearing < 360 := by
  apply C5_flip_normalized false dirCard (0, 0) 0 ⟨BType.side, [Tok.num 400], 1, true⟩
  · rfl
  · norm_num [processRow, parseBearing, pymod, dirCard]

/-- C6: a bearing of exactly 3 numeric tokens combines as
`deg + min/60 + sec/3600`; exactly 1 numeric token is taken as decimal
degrees; any other token count of a non-empty bearing, or a non-numeric
token, is a parse failure; a failing record is logged with its row index
and raw text and only that record is skipped; and the 180-degree flip is
applied modulo 360 to the combined azimuth, never to individual
components. -/
theorem C6_bearing_parse :
    (∀ d m s : ℚ, parseBearing [Tok.num d, Tok.num m, Tok.num s] =
      Except.ok (d + m/60 + s/3600)) ∧
    (∀ v : ℚ, parseBearing [Tok.num v] = Except.ok v) ∧
    (∀ toks : List Tok, (∃ e, parseBearing toks = Except.error e) ↔
      ¬ ((∃ d m s, toks = [Tok.num d, Tok.num m, Tok.num s]) ∨
         (∃ v, toks = [Tok.num v]))) ∧
    (∀ (chain : Bool) (dir : ℚ → ℚ × ℚ) (cursor : ℚ × ℚ) (idx : ℕ)
        (r : Row) (rest : List Row) (e : BFail),
      parseBearing r.bearing = Except.error e → 0 < r.distance → r.bearing ≠ [] →
      traverseFrom chain dir cursor idx (r :: rest) =
        ((traverseFrom chain dir cursor (idx + 1) rest).1,
         (⟨idx, r.bearing, e⟩ : LogEntry) ::
           (traverseFrom chain dir cursor (idx + 1) rest).2)) ∧
    (∀ (chain : Bool) (dir : ℚ → ℚ × ℚ) (cursor : ℚ × ℚ) (idx : ℕ)
        (r : Row) (s : Segment) (theta0 : ℚ),
      parseBearing r.bearing = Except.ok theta0 → r.flip = true →
      processRow chain dir cursor idx r = RowOutcome.seg s →
      s.bearing = pymod (theta0 + 180) 360) := by
  refine ⟨fun d m s => rfl, fun v => rfl, ?_, ?_, ?_⟩
  · intro toks
    constructor
    · rintro ⟨e, he⟩ hshape
      rcases hshape with ⟨d, m, s, rfl⟩ | ⟨v, rfl⟩
      · simp [parseBearing] at he
      · simp [parseBearing] at he
    · intro hn
      rcases toks with _ | ⟨t1, _ | ⟨t2, _ | ⟨t3, _ | ⟨t4, rest⟩⟩⟩⟩
      · exact ⟨BFail.badFormat, rfl⟩
      · cases t1 with
        | num v => exact absurd (Or.inr ⟨v, rfl⟩) hn
        | bad => exact ⟨BFail.notADecimal, rfl⟩
      · cases t1 <;> cases t2 <;> exact ⟨BFail.badFormat, rfl⟩
      · cases t1 with
        | bad => exact ⟨BFail.partsNotNumbers, rfl⟩
        | num d =>
          cases t2 with
          | bad => exact ⟨BFail.partsNotNumbers, rfl⟩
          | num m =>
            cases t3 with
            | bad => exact ⟨BFail.partsNotNumbers, rfl⟩
            | num s2 => exact absurd (Or.inl ⟨d, m, s2, rfl⟩) hn
      · cases t1 <;> cases t2 <;> cases t3 <;> cases t4 <;>
          exact ⟨BFail.badFormat, rfl⟩
  · intro chain dir cursor idx r rest e hp hd0 hb
    have hpr : processRow chain dir cursor idx r =
        RowOutcome.skipLogged ⟨idx, r.bearing, e⟩ := by
      unfold processRow
      rw [if_neg (not_le.mpr hd0)]
      simp only [if_neg hb]
      rw [hp]
    rw [traverseFrom_cons, hpr]
  · intro chain dir cursor idx r s theta0 hp hflip h
    unfold processRow at h
    by_cases hd : r.distance ≤ 0
    · rw [if_pos hd] at h
      cases h
    · rw [if_neg hd] at h
      by_cases hb : r.bearing = []
      · simp only [if_pos hb] at h
        cases h
      · simp only [if_neg hb] at h
        rw [hp] at h
        dsimp only at h
        simp only [hflip, eq_self_iff_true, if_true] at h
        cases h
        rfl

/-- C6 witness: the 3-token bearing 10 30 0 combines to 10.5 degrees,
and a one-row table whose bearing token is unparsable produces no
segment and exactly one log entry carrying row index 0 and the raw
text. -/
theorem C6_bearing_parse_witness :
    parseBearing [Tok.num 10, Tok.num 30, Tok.num 0] =
      Except.ok (10 + 30/60 + 0/3600) ∧
    traverseFrom false dirCard (0, 0) 0 [⟨BType.side, [Tok.bad], 1, false⟩] =
      ([], [⟨0, [Tok.bad], BFail.notADecimal⟩]) := by
  constructor
  · exact C6_bearing_parse.1 10 30 0
  · have h := C6_bearing_parse.2.2.2.1 false dirCard (0, 0) 0
      ⟨BType.side, [Tok.bad], 1, false⟩ [] BFail.notADecimal rfl (by norm_num)
      (by simp)
    rw [h]
    rfl

/-- Unfolding equation of the closure check on a list of at least two
segments. -/
theorem closingEdge_cons (f s : Segment) (rest : List Segment) :
    closingEdge (f :: s :: rest) =
      (if |f.start.1 - ((((f :: s :: rest).getLast?).getD f).endPt.1)| > TOL ∨
          |f.start.2 - ((((f :: s :: rest).getLast?).getD f).endPt.2)| > TOL
       then some ((((f :: s :: rest).getLast?).getD f).endPt, f.start)
       else none) := rfl

/-- C7 (amended): for every traversal that produces at least two usable
segments, no closing edge is drawn when the first start and last end
coincide within the 1e-6 tolerance in both coordinates, and exactly one
closing edge from the last end to the first start is drawn otherwise.
A traversal producing exactly one segment never gets a closing edge,
even when open (see the counterexample). -/
theorem C7_closure (chain : Bool) (dir : ℚ → ℚ × ℚ) (rows : List Row)
    (f l : Segment)
    (hf : (traverse chain dir rows).1.head? = some f)
    (hl : (traverse chain dir rows).1.getLast? = some l)
    (hlen : 2 ≤ (traverse chain dir rows).1.length) :
    ((|f.start.1 - l.endPt.1| ≤ TOL ∧ |f.start.2 - l.endPt.2| ≤ TOL) →
        closingEdge (traverse chain dir rows).1 = none) ∧
    ((|f.start.1 - l.endPt.1| > TOL ∨ |f.start.2 - l.endPt.2| > TOL) →
        closingEdge (traverse chain dir rows).1 = some (l.endPt, f.start)) := by
  rcases hsegs : (traverse chain dir rows).1 with _ | ⟨x, _ | ⟨y, rest⟩⟩
  · rw [hsegs] at hlen
    simp at hlen
  · rw [hsegs] at hlen
    simp at hlen
  · rw [hsegs] at hf hl
    simp only [List.head?_cons, Option.some.injEq] at hf
    subst hf
    rw [closingEdge_cons, hl]
    simp only [Option.getD_some]
    constructor
    · rintro ⟨hx, hy⟩
      rw [if_neg]
      push_neg
      exact ⟨hx, hy⟩
    · intro hgt
      rw [if_pos hgt]

/-- C7 counterexample: a traversal producing exactly one usable segment
that is open by 5 m (far beyond the tolerance) still gets no closing
edge, because the source only checks closure when more than one segment
exists; this refutes the claim for single-segment traversals. -/
theorem C7_counterexample :
    (traverse false dirCard [⟨BType.side, [Tok.num 0], 5, false⟩]).1 =
      [⟨BType.side, (0, 0), (0, 5), 0, 5, 0⟩] ∧
    ¬ (|((0:ℚ), (0:ℚ)).2 - ((0:ℚ), (5:ℚ)).2| ≤ TOL) ∧
    closingEdge (traverse false dirCard [⟨BType.side, [Tok.num 0], 5, false⟩]).1 =
      none := by
  have hseg : (traverse false dirCard [⟨BType.side, [Tok.num 0], 5, false⟩]).1 =
      [⟨BType.side, (0, 0), (0, 5), 0, 5, 0⟩] := by
    norm_num [traverse, traverseFrom, processRow, parseBearing, dirCard]
  refine ⟨hseg, by norm_num [TOL], ?_⟩
  rw [hseg]
  rfl

/-- C7 witness: the closed 10 x 5 rectangle at azimuths 0, 90, 180, 270
gets no closing edge, and the same rectangle with its last side
shortened to 4 m gets exactly one closing edge from (1,0) back to the
origin. -/
theorem C7_closure_witness :
    closingEdge (traverse false dirCard
      [⟨BType.side, [Tok.num 0], 10, false⟩,
       ⟨BType.rear, [Tok.num 90], 5, false⟩,
       ⟨BType.side, [Tok.num 180], 10, false⟩,
       ⟨BType.frontage, [Tok.num 270], 5, false⟩]).1 = none ∧
    closingEdge (traverse false dirCard
      [⟨BType.side, [Tok.num 0], 10, false⟩,
       ⟨BType.rear, [Tok.num 90], 5, false⟩,
       ⟨BType.side, [Tok.num 180], 10, false⟩,
       ⟨BType.frontage, [Tok.num 270], 4, false⟩]).1 = some ((1, 0), (0, 0)) := by
  have hseg1 : (traverse false dirCard
      [⟨BType.side, [Tok.num 0], 10, false⟩,
       ⟨BType.rear, [Tok.num 90], 5, false⟩,
       ⟨BType.side, [Tok.num 180], 10, false⟩,
       ⟨BType.frontage, [Tok.num 270], 5, false⟩]).1 =
      [⟨BType.side, (0, 0), (0, 10), 0, 10, 0⟩,
       ⟨BType.rear, (0, 10), (5, 10), 1, 5, 90⟩,
       ⟨BType.side, (5, 10), (5, 0), 2, 10, 180⟩,
       ⟨BType.frontage, (5, 0), (0, 0), 3, 5, 270⟩] := by
    norm_num [traverse, traverseFrom, processRow, parseBearing, dirCard]
  have hseg2 : (traverse false dirCard
      [⟨BType.side, [Tok.num 0], 10, false⟩,
       ⟨BType.rear, [Tok.num 90], 5, false⟩,
       ⟨BType.side, [Tok.num 180], 10, false⟩,
       ⟨BType.frontage, [Tok.num 270], 4, false⟩]).1 =
      [⟨BType.side, (0, 0), (0, 10), 0, 10, 0⟩,
       ⟨BType.rear, (0, 10), (5, 10), 1, 5, 90⟩,
       ⟨BType.side, (5, 10), (5, 0), 2, 10, 180⟩,
       ⟨BType.frontage, (5, 0), (1, 0), 3, 4, 270⟩] := by
    norm_num [traverse, traverseFrom, processRow, parseBearing, dirCard]
  constructor
  · apply (C7_closure false dirCard
      [⟨BType.side, [Tok.num 0], 10, false⟩,
       ⟨BType.rear, [Tok.num 90], 5, false⟩,
       ⟨BType.side, [Tok.num 180], 10, false⟩,
       ⟨BType.frontage, [Tok.num 270], 5, false⟩]
      ⟨BType.side, (0, 0), (0, 10), 0, 10, 0⟩
      ⟨BType.frontage, (5, 0), (0, 0), 3, 5, 270⟩
      (by rw [hseg1]; rfl) (by rw [hseg1]; rfl) (by rw [hseg1]; norm_num)).1
    norm_num [TOL]
  · apply (C7_closure false dirCard
      [⟨BType.side, [Tok.num 0], 10, false⟩,
       ⟨BType.rear, [Tok.num 90], 5, false⟩,
       ⟨BType.side, [Tok.num 180], 10, false⟩,
       ⟨BType.frontage, [Tok.num 270], 4, false⟩]
      ⟨BType.side, (0, 0), (0, 10), 0, 10, 0⟩
      ⟨BType.frontage, (5, 0), (1, 0), 3, 4, 270⟩
      (by rw [hseg2]; rfl) (by rw [hseg2]; rfl) (by rw [hseg2]; norm_num)).2
    norm_num [TOL]

/-- L1-norm oracle has the same zero set as the real hypot. -/
theorem hypL1_zero (a b : ℚ) : hypL1 a b = 0 ↔ a = 0 ∧ b = 0 := by
  unfold hypL1
  constructor
  · intro h
    have ha := abs_nonneg a
    have hb2 := abs_nonneg b
    refine ⟨abs_eq_zero.mp ?_, abs_eq_zero.mp ?_⟩ <;> linarith
  · rintro ⟨rfl, rfl⟩
    simp

/-- C8: for a non-degenerate segment, every offset line translates both
segment endpoints by `offset * (-dy/L, dx/L)`; every setback offset is
the negative absolute value of its configured distance; a Frontage
segment yields the three front setback lines plus one road line at
exactly +4.25; a Secondary segment yields its setback plus the road
line; Side and Rear yield their single like-named setback and no road
line. -/
theorem C8_offsets (hyp : ℚ → ℚ → ℚ) (sb : Setbacks) (seg : Segment)
    (hz : ∀ a b : ℚ, hyp a b = 0 ↔ a = 0 ∧ b = 0)
    (hnd : seg.start ≠ seg.endPt) :
    (seg.btype = BType.frontage → segOffsets hyp sb seg =
      ([OEvent.created ⟨OKind.setback SKey.front_min,
          translate seg.start (-|sb.front_min|)
            (-(seg.endPt.2 - seg.start.2) /
               hyp (seg.endPt.1 - seg.start.1) (seg.endPt.2 - seg.start.2),
             (seg.endPt.1 - seg.start.1) /
               hyp (seg.endPt.1 - seg.start.1) (seg.endPt.2 - seg.start.2)),
          translate seg.endPt (-|sb.front_min|)
            (-(seg.endPt.2 - seg.start.2) /
               hyp (seg.endPt.1 - seg.start.1) (seg.endPt.2 - seg.start.2),
             (seg.endPt.1 - seg.start.1) /
               hyp (seg.endPt.1 - seg.start.1) (seg.endPt.2 - seg.start.2))⟩,
        OEvent.created ⟨OKind.setback SKey.front_hab,
          translate seg.start (-|sb.front_hab|)
            (-(seg.endPt.2 - seg.start.2) /
               hyp (seg.endPt.1 - seg.start.1) (seg.endPt.2 - seg.start.2),
             (seg.endPt.1 - seg.start.1) /
               hyp (seg.endPt.1 - seg.start.1) (seg.endPt.2 - seg.start.2)),
          translate seg.endPt (-|sb.front_hab|)
            (-(seg.endPt.2 - seg.start.2) /
               hyp (seg.endPt.1 - seg.start.1) (seg.endPt.2 - seg.start.2),
             (seg.endPt.1 - seg.start.1) /
               hyp (seg.endPt.1 - seg.start.1) (seg.endPt.2 - seg.start.2))⟩,
        OEvent.created ⟨OKind.setback SKey.garage,
          translate seg.start (-|sb.garage|)
            (-(seg.endPt.2 - seg.start.2) /
               hyp (seg.endPt.1 - seg.start.1) (seg.endPt.2 - seg.start.2),
             (seg.endPt.1 - seg.start.1) /
               hyp (seg.endPt.1 - seg.start.1) (seg.endPt.2 - seg.start.2)),
          translate seg.endPt (-|sb.garage|)
            (-(seg.endPt.2 - seg.start.2) /
               hyp (seg.endPt.1 - seg.start.1) (seg.endPt.2 - seg.start.2),
             (seg.endPt.1 - seg.start.1) /
               hyp (seg.endPt.1 - seg.start.1) (seg.endPt.2 - seg.start.2))⟩,
        OEvent.created ⟨OKind.road,
          translate seg.start ROAD_OFFSET
            (-(seg.endPt.2 - seg.start.2) /
               hyp (seg.endPt.1 - seg.start.1) (seg.endPt.2 - seg.start.2),
             (seg.endPt.1 - seg.start.1) /
               hyp (seg.endPt.1 - seg.start.1) (seg.endPt.2 - seg.start.2)),
          translate seg.endPt ROAD_OFFSET
            (-(seg.endPt.2 - seg.start.2) /
               hyp (seg.endPt.1 - seg.start.1) (seg.endPt.2 - seg.start.2),
             (seg.endPt.1 - seg.start.1) /
               hyp (seg.endPt.1 - seg.start.1) (seg.endPt.2 - seg.start.2))⟩,
        OEvent.textNote seg.idx], false)) ∧
    (seg.btype = BType.secondary → segOffsets hyp sb seg =
      ([OEvent.created ⟨OKind.setback SKey.secondary,
          translate seg.start (-|sb.secondary|)
            (-(seg.endPt.2 - seg.start.2) /
               hyp (seg.endPt.1 - seg.start.1) (seg.endPt.2 - seg.start.2),
             (seg.endPt.1 - seg.start.1) /
               hyp (seg.endPt.1 - seg.start.1) (seg.endPt.2 - seg.start.2)),
          translate seg.endPt (-|sb.secondary|)
            (-(seg.endPt.2 - seg.start.2) /
               hyp (seg.endPt.1 - seg.start.1) (seg.endPt.2 - seg.start.2),
             (seg.endPt.1 - seg.start.1) /
               hyp (seg.endPt.1 - seg.start.1) (seg.endPt.2 - seg.start.2))⟩,
        OEvent.created ⟨OKind.road,
          translate seg.start ROAD_OFFSET
            (-(seg.endPt.2 - seg.start.2) /
               hyp (seg.endPt.1 - seg.start.1) (seg.endPt.2 - seg.start.2),
             (seg.endPt.1 - seg.start.1) /
               hyp (seg.endPt.1 - seg.start.1) (seg.endPt.2 - seg.start.2)),
          translate seg.endPt ROAD_OFFSET
            (-(seg.endPt.2 - seg.start.2) /
               hyp (seg.endPt.1 - seg.start.1) (seg.endPt.2 - seg.start.2),
             (seg.endPt.1 - seg.start.1) /
               hyp (seg.endPt.1 - seg.start.1) (seg.endPt.2 - seg.start.2))⟩,
        OEvent.textNote seg.idx], false)) ∧
    (seg.btype = BType.side → segOffsets hyp sb seg =
      ([OEvent.created ⟨OKind.setback SKey.side,
          translate seg.start (-|sb.side|)
            (-(seg.endPt.2 - seg.start.2) /
               hyp (seg.endPt.1 - seg.start.1) (seg.endPt.2 - seg.start.2),
             (seg.endPt.1 - seg.start.1) /
               hyp (seg.endPt.1 - seg.start.1) (seg.endPt.2 - seg.start.2)),
          translate seg.endPt (-|sb.side|)
            (-(seg.endPt.2 - seg.start.2) /
               hyp (seg.endPt.1 - seg.start.1) (seg.endPt.2 - seg.start.2),
             (seg.endPt.1 - seg.start.1) /
               hyp (seg.endPt.1 - seg.start.1) (seg.endPt.2 - seg.start.2))⟩,
        OEvent.textNote seg.idx], false)) ∧
    (seg.btype = BType.rear → segOffsets hyp sb seg =
      ([OEvent.created ⟨OKind.setback SKey.rear,
          translate seg.start (-|sb.rear|)
            (-(seg.endPt.2 - seg.start.2) /
               hyp (seg.endPt.1 - seg.start.1) (seg.endPt.2 - seg.start.2),
             (seg.endPt.1 - seg.start.1) /
               hyp (seg.endPt.1 - seg.start.1) (seg.endPt.2 - seg.start.2)),
          translate seg.endPt (-|sb.rear|)
            (-(seg.endPt.2 - seg.start.2) /
               hyp (seg.endPt.1 - seg.start.1) (seg.endPt.2 - seg.start.2),
             (seg.endPt.1 - seg.start.1) /
               hyp (seg.endPt.1 - seg.start.1) (seg.endPt.2 - seg.start.2))⟩,
        OEvent.textNote seg.idx], false)) := by
  have hL : hyp (seg.endPt.1 - seg.start.1) (seg.endPt.2 - seg.start.2) ≠ 0 := by
    intro h0
    obtain ⟨h1, h2⟩ := (hz _ _).mp h0
    apply hnd
    have e1 : seg.start.1 = seg.endPt.1 := by linarith
    have e2 : seg.start.2 = seg.endPt.2 := by linarith
    exact Prod.ext_iff.mpr ⟨e1, e2⟩
  obtain ⟨bt, s0, e0, i0, d0, b0⟩ := seg
  simp only at hL
  refine ⟨?_, ?_, ?_, ?_⟩ <;> intro hb <;> subst hb <;>
    · unfold segOffsets
      simp [List.map_cons, List.map_nil, if_neg hL, sbVal]

/-- C8 witness: a Side segment from the origin to (3,4) with the
QDC MP1.1 setbacks and the L1 length oracle (length 7) produces exactly
the interior setback line at offset -1.5 and the text-label note. -/
theorem C8_offsets_witness :
    segOffsets hypL1 ⟨6, 3/2, 3, 2, 3, 69/20, 3⟩
      ⟨BType.side, (0, 0), (3, 4), 0, 5, 90⟩ =
      ([OEvent.created ⟨OKind.setback SKey.side, (6/7, -(9/14)), (27/7, 47/14)⟩,
        OEvent.textNote 0], false) := by
  have h := (C8_offsets hypL1 ⟨6, 3/2, 3, 2, 3, 69/20, 3⟩
    ⟨BType.side, (0, 0), (3, 4), 0, 5, 90⟩ hypL1_zero
    (by simp [Prod.ext_iff])).2.2.1 rfl
  rw [h]
  norm_num [translate, hypL1, ROAD_OFFSET, abs_of_nonneg]

/-- C4: evaluating the offset pass on a boundary list whose first
segment is a zero-length Frontage edge followed by a normal Side edge:
the three front setbacks are skipped with one log entry each, but the
frontage road line then divides by the zero length (an uncaught
ZeroDivisionError, flag `true`), so no road line is drawn and the
remaining Side segment is never processed. -/
theorem C4_zero_length_frontage :
    offsetPass hypL1 ⟨6, 3/2, 3, 2, 3, 69/20, 3⟩
      [⟨BType.frontage, (0, 0), (0, 0), 0, 5, 0⟩,
       ⟨BType.side, (0, 0), (0, 5), 1, 5, 0⟩] =
      ([OEvent.skipZero 0 (some SKey.front_min),
        OEvent.skipZero 0 (some SKey.front_hab),
        OEvent.skipZero 0 (some SKey.garage)], true) := by
  norm_num [offsetPass, segOffsets, hypL1]

/-- C9 counterexample: raising the maximum RL of 10.0/10.2/10.4 by
delta = 0.3 moves cutMax from +0.200 only to +0.400 (an increase of
0.200, not 0.300) and moves fillMax from -0.200 to -0.300 (not
unchanged), because the bench mean rises with the input. -/
theorem C9_counterexample :
    (calculate_results [RTok.num 10, RTok.num (102/10), RTok.num (104/10)]
        "S8/WM8 (310mm)" 0).map (fun o => (o.cut_max, o.fill_max)) =
      some (2/10, -(2/10)) ∧
    (calculate_results [RTok.num 10, RTok.num (102/10), RTok.num (107/10)]
        "S8/WM8 (310mm)" 0).map (fun o => (o.cut_max, o.fill_max)) =
      some (4/10, -(3/10)) ∧
    ¬ ((4:ℚ)/10 = 2/10 + 3/10 ∧ (-(3/10) : ℚ) = -(2/10)) := by
  refine ⟨?_, ?_, by norm_num⟩
  · have h := calculate_results_spec [10, 102/10, 104/10] (by simp)
      "S8/WM8 (310mm)" 0
    simp only [List.map_cons, List.map_nil] at h
    rw [h]
    rw [round3_scaled 10000 10 (by norm_num),
        round3_scaled 10200 (102/10) (by norm_num),
        round3_scaled 10400 (104/10) (by norm_num)]
    norm_num [listMax, listMin, List.foldl, max_def, min_def]
    rw [round3_scaled 10200 (51/5) (by norm_num),
        (by norm_num : (52:ℚ)/5 - 51/5 = 1/5),
        round3_scaled 200 (1/5) (by norm_num),
        (by norm_num : (10:ℚ) - 51/5 = -(1/5)),
        round3_scaled (-200) (-(1/5)) (by norm_num)]
    exact ⟨rfl, rfl⟩
  · have h := calculate_results_spec [10, 102/10, 107/10] (by simp)
      "S8/WM8 (310mm)" 0
    simp only [List.map_cons, List.map_nil] at h
    rw [h]
    rw [round3_scaled 10000 10 (by norm_num),
        round3_scaled 10200 (102/10) (by norm_num),
        round3_scaled 10700 (107/10) (by norm_num)]
    norm_num [listMax, listMin, List.foldl, max_def, min_def]
    rw [round3_scaled 10300 (103/10) (by norm_num),
        (by norm_num : (107:ℚ)/10 - 103/10 = 2/5),
        round3_scaled 400 (2/5) (by norm_num),
        (by norm_num : (10:ℚ) - 103/10 = -(3/10)),
        round3_scaled (-300) (-(3/10)) (by norm_num)]
    exact ⟨rfl, rfl⟩

/-- C9 (amended): on a list of n >= 2 RLs whose values and whose old
and new means are exact at 3 decimals, increasing an input RL that is
currently the maximum by delta > 0 increases cutMax by exactly
delta*(n-1)/n and decreases fillMax by exactly delta/n (the bench mean
absorbs delta/n of the increase); cutMax never grows by the full delta
and fillMax never stays unchanged for n >= 2. -/
theorem C9_monotonicity (a delta : ℚ) (rest : List ℚ)
    (hd : 0 < delta) (hrest : rest ≠ [])
    (hmaxr : ∀ x ∈ rest, x ≤ a)
    (hfa : round3 a = a) (hfad : round3 (a + delta) = a + delta)
    (hfr : ∀ x ∈ rest, round3 x = x)
    (hmean : round3 ((a + rest.sum) / ((rest.length : ℚ) + 1)) =
      (a + rest.sum) / ((rest.length : ℚ) + 1))
    (hmean2 : round3 ((a + delta + rest.sum) / ((rest.length : ℚ) + 1)) =
      (a + delta + rest.sum) / ((rest.length : ℚ) + 1))
    (lbl : String) (mf : ℚ) :
    ∃ o o2 : CalcOutput,
      calculate_results ((a :: rest).map RTok.num) lbl mf = some o ∧
      calculate_results (((a + delta) :: rest).map RTok.num) lbl mf = some o2 ∧
      o2.cut_max = o.cut_max +
        delta * (rest.length : ℚ) / ((rest.length : ℚ) + 1) ∧
      o2.fill_max = o.fill_max - delta / ((rest.length : ℚ) + 1) := by
  have hmaprest : rest.map round3 = rest := by
    have h1 : rest.map round3 = rest.map id := List.map_congr_left hfr
    rw [h1, List.map_id]
  have hmap1 : (a :: rest).map round3 = a :: rest := by
    simp only [List.map_cons, hfa, hmaprest]
  have hmap2 : ((a + delta) :: rest).map round3 = (a + delta) :: rest := by
    simp only [List.map_cons, hfad, hmaprest]
  have h1 := calculate_results_spec (a :: rest) (by simp) lbl mf
  have h2 := calculate_results_spec ((a + delta) :: rest) (by simp) lbl mf
  rw [hmap1] at h1
  rw [hmap2] at h2
  have e1 : ((a :: rest).sum / ((a :: rest).length : ℚ)) =
      (a + rest.sum) / ((rest.length : ℚ) + 1) := by
    rw [List.sum_cons, List.length_cons]
    push_cast
    ring_nf
  have e2 : (((a + delta) :: rest).sum / (((a + delta) :: rest).length : ℚ)) =
      (a + delta + rest.sum) / ((rest.length : ℚ) + 1) := by
    rw [List.sum_cons, List.length_cons]
    push_cast
    ring_nf
  have hmaxa : listMax (a :: rest) = a := listMax_eq_head a rest hmaxr
  have hmaxa2 : listMax ((a + delta) :: rest) = a + delta :=
    listMax_eq_head _ _ (fun x hx => le_trans (hmaxr x hx) (by linarith))
  have hminle : listMin rest ≤ a := hmaxr _ (listMin_mem rest hrest)
  have hmin1 : listMin (a :: rest) = listMin rest :=
    listMin_cons_of_le a rest hrest hminle
  have hmin2 : listMin ((a + delta) :: rest) = listMin rest :=
    listMin_cons_of_le _ rest hrest (by linarith)
  rw [e1, hmaxa, hmin1, hmean] at h1
  rw [e2, hmaxa2, hmin2, hmean2] at h2
  have hfmin : round3 (listMin rest) = listMin rest := hfr _ (listMin_mem rest hrest)
  have hcut1 := round3_fix_sub a ((a + rest.sum) / ((rest.length : ℚ) + 1)) hfa hmean
  have hcut2 := round3_fix_sub (a + delta)
    ((a + delta + rest.sum) / ((rest.length : ℚ) + 1)) hfad hmean2
  have hfill1 := round3_fix_sub (listMin rest)
    ((a + rest.sum) / ((rest.length : ℚ) + 1)) hfmin hmean
  have hfill2 := round3_fix_sub (listMin rest)
    ((a + delta + rest.sum) / ((rest.length : ℚ) + 1)) hfmin hmean2
  rw [hcut1, hfill1] at h1
  rw [hcut2, hfill2] at h2
  refine ⟨_, _, h1, h2, ?_, ?_⟩
  · dsimp only
    have hn : ((rest.length : ℚ) + 1) ≠ 0 := by positivity
    field_simp
    ring
  · dsimp only
    have hn : ((rest.length : ℚ) + 1) ≠ 0 := by positivity
    field_simp
    ring

/-- C9 witness: 10.0/10.2 with maximum 10.4 increased by 0.3; the true
increments are delta*(n-1)/n for cutMax and -delta/n for fillMax at
n = 3. -/
theorem C9_monotonicity_witness :
    ∃ o o2 : CalcOutput,
      calculate_results ((((104:ℚ)/10) :: [10, 102/10]).map RTok.num)
        "S8/WM8 (310mm)" 0 = some o ∧
      calculate_results ((((104:ℚ)/10 + 3/10) :: [10, 102/10]).map RTok.num)
        "S8/WM8 (310mm)" 0 = some o2 ∧
      o2.cut_max = o.cut_max +
        (3/10) * ((([10, 102/10] : List ℚ).length : ℚ)) /
          ((([10, 102/10] : List ℚ).length : ℚ) + 1) ∧
      o2.fill_max = o.fill_max -
        (3/10) / ((([10, 102/10] : List ℚ).length : ℚ) + 1) := by
  apply C9_monotonicity (104/10) (3/10) [10, 102/10] (by norm_num) (by simp)
  · intro x hx
    fin_cases hx <;> norm_num
  · exact round3_scaled 10400 _ (by norm_num)
  · exact round3_scaled 10700 _ (by norm_num)
  · intro x hx
    fin_cases hx
    · exact round3_scaled 10000 _ (by norm_num)
    · exact round3_scaled 10200 _ (by norm_num)
  · rw [(by norm_num : ((104:ℚ)/10 + ([10, 102/10] : List ℚ).sum) /
        ((([10, 102/10] : List ℚ).length : ℚ) + 1) = 102/10)]
    exact round3_scaled 10200 _ (by norm_num)
  · rw [(by norm_num : ((104:ℚ)/10 + 3/10 + ([10, 102/10] : List ℚ).sum) /
        ((([10, 102/10] : List ℚ).length : ℚ) + 1) = 103/10)]
    exact round3_scaled 10300 _ (by norm_num)

end CDC
